import Mathlib

/-!
Verification development for the strands-agui-agent bridge.

The definitions below are a shallow embedding of
`src/strands_agui_agent/agent.py` (the `StrandsAGUIAgent` bridge class) and
of the event/message data model in `src/strands_agui_agent/agui_types.py`.
Python dicts holding tool input are modelled by `PyVal` (strings and flat
string-valued objects, the only shapes the bridge ever exchanges); Python
`uuid.uuid4()` is modelled by a deterministic fresh-name supply threaded
through the state (only distinctness of generated identifiers is
observable); the external Strands engine stream is abstracted as a list of
upstream items, each either an event or an exception raised by the engine.
-/

namespace StrandsAGUI

/-- A Python value in the universe this bridge exchanges: a string or a flat
object with string keys and string values (tool inputs such as
`\x7b"expression": "2+2"\x7d`). -/
inductive PyVal where
  | pyStr (s : String)
  | pyDict (fields : List (String × String))
deriving DecidableEq, Repr

/-- A single-quote character, used by Python `str()` rendering of dicts. -/
def sq : String := String.singleton (Char.ofNat 39)

/-- Python `str()` on a `PyVal`: a string renders as itself, a dict renders
as `\x7b"k": "v", ...\x7d` (the form `str(tool_use.get("input", ...))`
produces in `_convert_strands_to_agui_events`). -/
def pyValStr : PyVal → String
  | .pyStr s => s
  | .pyDict fields =>
      "\x7b" ++
        String.intercalate ", "
          (fields.map fun kv => sq ++ kv.1 ++ sq ++ ": " ++ sq ++ kv.2 ++ sq) ++
      "\x7d"

/-- Downstream run result payload: the `result` dicts built in
`run_streaming` / `continue_after_tools` (`agent.py:375-391, 452-456`). -/
inductive RunResult where
  | completed
  | waitingForTools (toolCalls : List (String × String))
deriving DecidableEq, Repr

/-- Downstream AG-UI event, the tagged union of `agui_types.py`
(only fields the bridge populates are carried). -/
inductive AGUIEvent where
  | textMessageStart (messageId : String) (role : String)
  | textMessageContent (messageId : String) (delta : String)
  | textMessageEnd (messageId : String)
  | toolCallStart (toolCallId : String) (toolCallName : String)
  | toolCallArgs (toolCallId : String) (delta : String)
  | toolCallEnd (toolCallId : String)
  | runStarted (threadId : String) (runId : String)
  | runFinished (threadId : String) (runId : String) (result : RunResult)
  | runError (message : String) (code : String)
deriving DecidableEq, Repr

/-- Upstream tool-use payload: the `toolUse` dicts read with
`tool_use.get("toolUseId", str(uuid.uuid4()))`, `tool_use.get("name",
"unknown")`, `tool_use.get("input", ...)`; absent keys are `none`. -/
structure ToolUseData where
  toolUseId : Option String
  name : Option String
  input : Option PyVal
deriving DecidableEq, Repr

/-- One item of a complete-message snapshot `content` list; the code
only inspects items with a `toolUse` key (`agent.py:252-253`). -/
inductive ContentItem where
  | toolUseItem (tu : ToolUseData)
  | otherItem
deriving DecidableEq, Repr

/-- Snapshot message payload: the dict read by `strands_event["message"]`,
with `.get("role")` and the optional `content` list. -/
structure MessageData where
  role : Option String
  content : Option (List ContentItem)
deriving DecidableEq, Repr

/-- The recognized sub-shapes under the `"event"` key
(`agent.py:179-223, 354-358`). The guards `"delta" in ... and "text" in
...` and `"start" in ... and "toolUse" in ...` are flattened into
`Option`s: `none` means the guard failed. -/
inductive InnerEvent where
  | messageStart
  | contentBlockDelta (text : Option String)
  | contentBlockStart (toolUse : Option ToolUseData)
  | messageStop (stopReason : Option String)
  | otherInner
deriving DecidableEq, Repr

/-- A dict-shaped upstream Strands event, keyed as in the dispatch of
`_convert_strands_to_agui_events`: an `"event"` wrapper, a
`"current_tool_use"` update, a `"message"` snapshot, or anything else. -/
inductive StrandsEvent where
  | eventWrapped (inner : InnerEvent)
  | currentToolUse (tu : ToolUseData)
  | messageEvt (msg : MessageData)
  | unrecognized
deriving DecidableEq, Repr

/-- Value of one `pending_tools` entry:
`\x7b"name": ..., "input": ...\x7d` (`agent.py:215-218`). -/
structure PendingTool where
  name : String
  input : PyVal
deriving DecidableEq, Repr

/-- One upstream stream item: either an engine event or an exception the
engine (or event translation) raises at that point of the stream. -/
inductive UpstreamItem where
  | evt (se : StrandsEvent)
  | raiseErr (msg : String)
deriving DecidableEq, Repr

/-- Insertion-ordered dict lookup (Python `d.get(k)` / `k in d`). -/
def dictLookup {α : Type} : List (String × α) → String → Option α
  | [], _ => none
  | (k, v) :: rest, key => if k = key then some v else dictLookup rest key

/-- Insertion-ordered dict assignment `d[k] = v`: updates in place when the
key exists, otherwise appends (Python dict semantics). -/
def dictInsert {α : Type} : List (String × α) → String → α → List (String × α)
  | [], key, v => [(key, v)]
  | (k, w) :: rest, key, v =>
      if k = key then (k, v) :: rest else (k, w) :: dictInsert rest key v

/-- Model of `str(uuid.uuid4())`: the n-th fresh identifier. -/
def freshId (n : Nat) : String := "uuid-" ++ toString n

/-- The `ExecutionState` dataclass (`agent.py:43-57`), plus the fresh-name
counter that models the `uuid.uuid4()` supply. -/
structure ExecutionState where
  threadId : String
  runId : String
  pendingTools : List (String × PendingTool)
  toolResults : List (String × String)
  currentMessageId : Option String
  waitingForTools : Bool
  fresh : Nat
deriving DecidableEq, Repr

/-- Result of one translator call: the produced events and the mutated
state, or a raised exception (the mutated state survives the raise because
the Python state object is shared by reference). -/
inductive TranslateResult where
  | ok (events : List AGUIEvent) (st : ExecutionState)
  | error (msg : String) (st : ExecutionState)
deriving DecidableEq, Repr

/-- `tool_use.get("toolUseId", str(uuid.uuid4()))`: the declared id, or a
fresh one when the key is absent. -/
def getToolUseId (tu : ToolUseData) (st : ExecutionState) : String × ExecutionState :=
  match tu.toolUseId with
  | some i => (i, st)
  | none => (freshId st.fresh, { st with fresh := st.fresh + 1 })

/-- `"messageStart"` branch (`agent.py:183-189`): open a text message only
when none is open. -/
def handleMessageStart (st : ExecutionState) : TranslateResult :=
  match st.currentMessageId with
  | some _ => .ok [] st
  | none =>
      let mid := freshId st.fresh
      .ok [.textMessageStart mid "assistant"]
        { st with currentMessageId := some mid, fresh := st.fresh + 1 }

/-- `"contentBlockDelta"` branch (`agent.py:192-205`): open a message if
needed, then construct a `TextMessageContentEvent`. Pydantic validation
(`delta: str = Field(min_length=1)`, `agui_types.py:60`) rejects an empty
delta: the constructor raises, the locally built event list is lost, and
the already-performed state mutation persists. -/
def handleContentDelta (text : Option String) (st : ExecutionState) : TranslateResult :=
  match text with
  | none => .ok [] st
  | some txt =>
      match st.currentMessageId with
      | some mid =>
          if txt = "" then
            .error "TextMessageContentEvent: delta should have at least 1 character" st
          else .ok [.textMessageContent mid txt] st
      | none =>
          let mid := freshId st.fresh
          let st' : ExecutionState :=
            { st with currentMessageId := some mid, fresh := st.fresh + 1 }
          if txt = "" then
            .error "TextMessageContentEvent: delta should have at least 1 character" st'
          else .ok [.textMessageStart mid "assistant", .textMessageContent mid txt] st'

/-- `"contentBlockStart"` branch (`agent.py:208-223`): unconditionally
(re)register the id in `pending_tools` and emit `ToolCallStart` — the code
performs no membership check on this shape. -/
def handleContentBlockStart (toolUse : Option ToolUseData) (st : ExecutionState) :
    TranslateResult :=
  match toolUse with
  | none => .ok [] st
  | some tu =>
      let (tcid, st1) := getToolUseId tu st
      let name := tu.name.getD "unknown"
      let st2 : ExecutionState :=
        { st1 with pendingTools :=
            dictInsert st1.pendingTools tcid ⟨name, tu.input.getD (.pyDict [])⟩ }
      .ok [.toolCallStart tcid name] st2

/-- `"current_tool_use"` branch (`agent.py:226-246`): register and emit
`ToolCallStart` only when the id is new, then always emit a `ToolCallArgs`
carrying `str(tool_use.get("input", ""))`. A registered id stored input
is not touched. -/
def handleCurrentToolUse (tu : ToolUseData) (st : ExecutionState) : TranslateResult :=
  let (tcid, st1) := getToolUseId tu st
  let argsDelta := pyValStr (tu.input.getD (.pyStr ""))
  match dictLookup st1.pendingTools tcid with
  | some _ => .ok [.toolCallArgs tcid argsDelta] st1
  | none =>
      let name := tu.name.getD "unknown"
      let st2 : ExecutionState :=
        { st1 with pendingTools :=
            dictInsert st1.pendingTools tcid ⟨name, tu.input.getD (.pyDict [])⟩ }
      .ok [.toolCallStart tcid name, .toolCallArgs tcid argsDelta] st2

/-- One snapshot content item (`agent.py:252-266`): for a `toolUse` item,
register the id when unseen, then emit `ToolCallEnd` (and nothing else). -/
def snapshotStep (st : ExecutionState) (item : ContentItem) :
    List AGUIEvent × ExecutionState :=
  match item with
  | .otherItem => ([], st)
  | .toolUseItem tu =>
      let (tcid, st1) := getToolUseId tu st
      let name := tu.name.getD "unknown"
      let st2 : ExecutionState :=
        match dictLookup st1.pendingTools tcid with
        | some _ => st1
        | none =>
            { st1 with pendingTools :=
                dictInsert st1.pendingTools tcid ⟨name, tu.input.getD (.pyDict [])⟩ }
      ([.toolCallEnd tcid], st2)

/-- The snapshot loop `for content_item in message["content"]`. -/
def processSnapshotItems : List ContentItem → ExecutionState →
    List AGUIEvent × ExecutionState
  | [], st => ([], st)
  | item :: rest, st =>
      let (evs, st1) := snapshotStep st item
      let (tailEvs, st2) := processSnapshotItems rest st1
      (evs ++ tailEvs, st2)

/-- `"message"` branch (`agent.py:249-266`): only an assistant message with
a `content` list is inspected. -/
def handleMessage (msg : MessageData) (st : ExecutionState) : TranslateResult :=
  if msg.role = some "assistant" then
    match msg.content with
    | some items =>
        let (evs, st') := processSnapshotItems items st
        .ok evs st'
    | none => .ok [] st
  else .ok [] st

/-- `_convert_strands_to_agui_events` (`agent.py:168-289`), restricted to
the dict-shaped events the bridge actually dispatches on (the legacy
`TypedEvent` fallback repeats the content-delta logic and is subsumed by
`contentBlockDelta`). -/
def convert_strands_to_agui_events (se : StrandsEvent) (st : ExecutionState) :
    TranslateResult :=
  match se with
  | .eventWrapped inner =>
      match inner with
      | .messageStart => handleMessageStart st
      | .contentBlockDelta text => handleContentDelta text st
      | .contentBlockStart toolUse => handleContentBlockStart toolUse st
      | .messageStop _ => .ok [] st
      | .otherInner => .ok [] st
  | .currentToolUse tu => handleCurrentToolUse tu st
  | .messageEvt msg => handleMessage msg st
  | .unrecognized => .ok [] st

/-! ## Message conversion (`_convert_agui_message_to_strands`) -/

/-- An inbound AG-UI protocol message (`agui_types.py:153-190`); the
`Message` union is discriminated by role, so exactly these four shapes
occur and the Python fallback branch is unreachable. -/
inductive AGUIMessage where
  | user (id : String) (content : String)
  | assistant (id : String) (content : Option String)
      (toolCalls : Option (List (String × String × String)))
  | system (id : String) (content : String)
  | toolMsg (id : String) (content : String) (toolCallId : String) (error : Option String)
deriving DecidableEq, Repr

/-- One content block of a Strands-format conversation entry. -/
inductive StrandsBlock where
  | textBlock (text : String)
  | toolUseBlock (toolUseId : String) (name : String) (input : PyVal)
  | toolResultBlock (toolUseId : String) (content : String) (status : String)
deriving DecidableEq, Repr

/-- A Strands-format conversation entry `\x7b"role": ..., "content":
[...]\x7d`. -/
structure StrandsMessage where
  role : String
  content : List StrandsBlock
deriving DecidableEq, Repr

def dquote : Char := Char.ofNat 34
def lbraceChar : Char := Char.ofNat 123
def rbraceChar : Char := Char.ofNat 125

def isJsonWs (c : Char) : Bool := c = ' ' || c = '\t' || c = '\n' || c = '\r'

def skipWs (cs : List Char) : List Char := cs.dropWhile isJsonWs

/-- Read a double-quoted string literal (no escape handling: the flat
string payloads this bridge exchanges contain none). -/
def readQuoted (cs : List Char) : Option (String × List Char) :=
  match cs with
  | c :: rest =>
      if c = dquote then
        let content := rest.takeWhile (fun x => x ≠ dquote)
        match rest.drop content.length with
        | c2 :: rest2 => if c2 = dquote then some (String.mk content, rest2) else none
        | [] => none
      else none
  | [] => none

/-- Read the `"key": "value"` members of a JSON object up to and including
the closing brace; the fuel bounds recursion by the input length. -/
def readMembers : Nat → List Char → Option (List (String × String) × List Char)
  | 0, _ => none
  | fuel + 1, cs =>
      match readQuoted (skipWs cs) with
      | none => none
      | some (k, cs1) =>
          match skipWs cs1 with
          | c :: cs2 =>
              if c = ':' then
                match readQuoted (skipWs cs2) with
                | none => none
                | some (v, cs3) =>
                    match skipWs cs3 with
                    | c2 :: cs4 =>
                        if c2 = ',' then
                          match readMembers fuel cs4 with
                          | some (ps, rest) => some ((k, v) :: ps, rest)
                          | none => none
                        else if c2 = rbraceChar then some ([(k, v)], cs4)
                        else none
                    | [] => none
              else none
          | [] => none

/-- Model of Python `json.loads`, restricted to the value universe of
`PyVal` (JSON strings and flat string-valued objects); anything else is a
decode error, which `json.loads` raises (`agent.py:111`). -/
def jsonLoads (s : String) : Except String PyVal :=
  match skipWs s.toList with
  | [] => .error "JSONDecodeError: Expecting value"
  | c :: rest =>
      if c = lbraceChar then
        match skipWs rest with
        | c2 :: rest2 =>
            if c2 = rbraceChar then
              if (skipWs rest2).isEmpty then .ok (.pyDict []) else .error "JSONDecodeError: Extra data"
            else
              match readMembers s.length (skipWs rest) with
              | some (ps, restF) =>
                  if (skipWs restF).isEmpty then .ok (.pyDict ps)
                  else .error "JSONDecodeError: Extra data"
              | none => .error "JSONDecodeError: Expecting property name"
        | [] => .error "JSONDecodeError: Expecting property name"
      else
        match readQuoted (c :: rest) with
        | some (v, restF) =>
            if (skipWs restF).isEmpty then .ok (.pyStr v)
            else .error "JSONDecodeError: Extra data"
        | none => .error "JSONDecodeError: Expecting value"

/-- Python truthiness of the optional `error` field of a tool message:
`not message.error` is true for `None` and for the empty string. -/
def errFalsy (err : Option String) : Bool :=
  match err with
  | none => true
  | some s => s = ""

/-- `_convert_agui_message_to_strands` (`agent.py:96-130`). An assistant
tool call `arguments` field is a string in the AG-UI types
(`agui_types.py:140-143`), so the `isinstance(..., str)` test is always
true and the arguments always pass through `json.loads`; a decode failure
propagates as a conversion error. Tool-call triples are `(id, name,
arguments)`. -/
def convert_agui_message_to_strands (m : AGUIMessage) : Except String StrandsMessage :=
  match m with
  | .user _ content => .ok ⟨"user", [.textBlock content]⟩
  | .assistant _ content toolCalls =>
      let base : List StrandsBlock :=
        match content with
        | some c => if c = "" then [] else [.textBlock c]
        | none => []
      match toolCalls with
      | none => .ok ⟨"assistant", base⟩
      | some tcs =>
          (tcs.mapM fun tc =>
              (jsonLoads tc.2.2).map fun v => StrandsBlock.toolUseBlock tc.1 tc.2.1 v).map
            fun blocks => ⟨"assistant", base ++ blocks⟩
  | .system _ content => .ok ⟨"system", [.textBlock content]⟩
  | .toolMsg _ content toolCallId err =>
      .ok ⟨"user",
        [.toolResultBlock toolCallId content (if errFalsy err then "success" else "error")]⟩

/-- The conversion loop of `run_streaming` (`agent.py:321-325`): every
inbound message is converted and appended, in order, with no exclusions
and no synthesized turns. -/
def prepareMessages : List AGUIMessage → Except String (List StrandsMessage)
  | [] => .ok []
  | m :: rest =>
      match convert_agui_message_to_strands m with
      | .error e => .error e
      | .ok sm =>
          match prepareMessages rest with
          | .error e => .error e
          | .ok tail => .ok (sm :: tail)

/-! ## Run orchestration (`run_streaming`, `continue_after_tools`) -/

/-- Frontend tool declaration from the run-start payload
(`agui_types.py:199-203`; the parameter schema is opaque to the bridge). -/
structure AGUITool where
  name : String
  description : String
deriving DecidableEq, Repr

/-- The run-start payload fields the modelled code paths read
(`agui_types.py:206-214`; `state`, `context` and `forwarded_props` are
never consulted by `run_streaming`). -/
structure RunAgentInput where
  threadId : String
  runId : String
  messages : List AGUIMessage
  tools : List AGUITool
deriving DecidableEq, Repr

/-- The `self.execution_states` map, keyed by `f"\x7bthread_id\x7d:\x7brun_id\x7d"`. -/
abbrev Store := List (String × ExecutionState)

/-- Is this downstream event one of the three tool-call event classes
checked by `isinstance(agui_event, (ToolCallStartEvent, ToolCallArgsEvent,
ToolCallEndEvent))` (`agent.py:349`)? -/
def isToolEvent : AGUIEvent → Bool
  | .toolCallStart _ _ => true
  | .toolCallArgs _ _ => true
  | .toolCallEnd _ => true
  | _ => false

/-- The tool-pause test of `agent.py:354-358`: a wrapped `messageStop`
whose `stopReason` is `"tool_use"`. -/
def isToolUseStop : StrandsEvent → Bool
  | .eventWrapped (.messageStop (some r)) => r = "tool_use"
  | _ => false

/-- Result of pumping the upstream stream inside `run_streaming`. -/
structure LoopResult where
  events : List AGUIEvent
  st : ExecutionState
  hasToolCalls : Bool
  shouldPause : Bool
  errored : Option String
deriving DecidableEq, Repr

/-- The `async for strands_event in ... stream_async(...)` loop of
`run_streaming` (`agent.py:344-362`): translate each event, record whether
any tool-call event was emitted, and break out on a `messageStop` with
stop reason `"tool_use"`. An exception (from the engine or from event
validation) ends the loop with the events already yielded kept. -/
def runLoop : List UpstreamItem → ExecutionState → Bool → LoopResult
  | [], st, htc => ⟨[], st, htc, false, none⟩
  | .raiseErr msg :: _, st, htc => ⟨[], st, htc, false, some msg⟩
  | .evt se :: rest, st, htc =>
      match convert_strands_to_agui_events se st with
      | .error msg st' => ⟨[], st', htc, false, some msg⟩
      | .ok evs st' =>
          let htc' := htc || evs.any isToolEvent
          if isToolUseStop se then ⟨evs, st', htc', true, none⟩
          else
            let r := runLoop rest st' htc'
            ⟨evs ++ r.events, r.st, r.hasToolCalls, r.shouldPause, r.errored⟩

/-- The fresh `ExecutionState` built at the top of `run_streaming`
(`agent.py:302-307`). -/
def initExecutionState (tid rid : String) : ExecutionState :=
  ⟨tid, rid, [], [], none, false, 0⟩

def storeKey (tid rid : String) : String := tid ++ ":" ++ rid

/-- Closing of any open text message (`agent.py:369-370, 449-450`). -/
def closeEvents (mid : Option String) : List AGUIEvent :=
  match mid with
  | some m => [.textMessageEnd m]
  | none => []

/-- The `tool_calls` list of the waiting `RunFinished` result
(`agent.py:380-383`), in `pending_tools` insertion order. -/
def toolCallSummary (pts : List (String × PendingTool)) : List (String × String) :=
  pts.map fun p => (p.1, p.2.name)

structure RunStreamOutput where
  events : List AGUIEvent
  store : Store
deriving DecidableEq, Repr

/-- `run_streaming` (`agent.py:291-397`), as a function of the upstream
engine stream. The execution state is registered in the store keyed by
`thread_id:run_id`; because Python stores the object by reference, the
store always ends holding the final mutated state. Tool registration and
prompt selection only parameterize the external engine call, which is
abstracted by `trace`, so they produce no modelled effect. Any exception
inside the `try` block (message conversion, engine fault, or event
validation) yields the single terminal `RunError` with code
`AGENT_ERROR`. -/
def run_streaming (input : RunAgentInput) (trace : List UpstreamItem) (store : Store) :
    RunStreamOutput :=
  let st0 := initExecutionState input.threadId input.runId
  let key := storeKey input.threadId input.runId
  let started := AGUIEvent.runStarted input.threadId input.runId
  match prepareMessages input.messages with
  | .error e => ⟨[started, .runError e "AGENT_ERROR"], dictInsert store key st0⟩
  | .ok _strandsMessages =>
      let lr := runLoop trace st0 false
      match lr.errored with
      | some msg =>
          ⟨[started] ++ lr.events ++ [.runError msg "AGENT_ERROR"],
           dictInsert store key lr.st⟩
      | none =>
          let htc := lr.hasToolCalls || (lr.shouldPause && !lr.st.pendingTools.isEmpty)
          if htc && !lr.st.pendingTools.isEmpty then
            ⟨[started] ++ lr.events ++ closeEvents lr.st.currentMessageId ++
              [.runFinished input.threadId input.runId
                (.waitingForTools (toolCallSummary lr.st.pendingTools))],
             dictInsert store key { lr.st with waitingForTools := true }⟩
          else
            ⟨[started] ++ lr.events ++ closeEvents lr.st.currentMessageId ++
              [.runFinished input.threadId input.runId .completed],
             dictInsert store key lr.st⟩

structure ContinueLoopResult where
  events : List AGUIEvent
  st : ExecutionState
  errored : Option String
deriving DecidableEq, Repr

/-- The continuation `async for` loop (`agent.py:443-446`): it pumps the
whole stream through the translator with no pause detection and no
tool-call bookkeeping. -/
def continueLoop : List UpstreamItem → ExecutionState → ContinueLoopResult
  | [], st => ⟨[], st, none⟩
  | .raiseErr msg :: _, st => ⟨[], st, some msg⟩
  | .evt se :: rest, st =>
      match convert_strands_to_agui_events se st with
      | .error msg st' => ⟨[], st', some msg⟩
      | .ok evs st' =>
          let r := continueLoop rest st'
          ⟨evs ++ r.events, r.st, r.errored⟩

/-- The tool-result turn appended for each supplied result
(`agent.py:422-433`); status is always `"success"` on this path. -/
def toolResultMessage (tcid result : String) : StrandsMessage :=
  ⟨"user", [.toolResultBlock tcid result "success"]⟩

/-- The stored state after the continuation preparatory mutations
(`agent.py:418-436`): merge the supplied results into `tool_results` and
set a fresh `current_message_id`. -/
def continueStartState (st0 : ExecutionState) (results : List (String × String)) :
    ExecutionState :=
  { st0 with
      toolResults := results.foldl (fun d p => dictInsert d p.1 p.2) st0.toolResults,
      currentMessageId := some (freshId st0.fresh),
      fresh := st0.fresh + 1 }

structure ContinueOutput where
  events : List AGUIEvent
  store : Store
  agentMessages : List StrandsMessage
deriving DecidableEq, Repr

/-- `continue_after_tools` (`agent.py:399-462`). A missing execution state
yields exactly one `RunError` with code `STATE_ERROR` and performs no
other work. Otherwise: merge the results into `tool_results`, append one
tool-result turn per supplied result to the engine history, open a fresh
text message, pump the continuation stream, then close the message and
finish (`CONTINUATION_ERROR` on an exception). The flag
`waiting_for_tools` is never written on this path. -/
def continue_after_tools (threadId runId : String)
    (toolResults : List (String × String)) (trace : List UpstreamItem)
    (store : Store) (agentMessages : List StrandsMessage) : ContinueOutput :=
  let key := storeKey threadId runId
  match dictLookup store key with
  | none => ⟨[.runError "Execution state not found" "STATE_ERROR"], store, agentMessages⟩
  | some st0 =>
      let agentMessages' := agentMessages ++ toolResults.map fun p => toolResultMessage p.1 p.2
      let mid := freshId st0.fresh
      let startEv := AGUIEvent.textMessageStart mid "assistant"
      let r := continueLoop trace (continueStartState st0 toolResults)
      match r.errored with
      | some msg =>
          ⟨[startEv] ++ r.events ++ [.runError msg "CONTINUATION_ERROR"],
           dictInsert store key r.st, agentMessages'⟩
      | none =>
          ⟨[startEv] ++ r.events ++ closeEvents r.st.currentMessageId ++
            [.runFinished threadId runId .completed],
           dictInsert store key r.st, agentMessages'⟩

/-! ## Frontend tool stand-ins (`_create_strands_tool_from_agui`) -/

/-- The callable stand-in registered with the engine for a
frontend-declared tool: its name, docstring, and invocation behaviour. -/
structure StrandsTool where
  name : String
  doc : String
  invoke : List (String × String) → Except String String

/-- `_create_strands_tool_from_agui` (`agent.py:152-166`): the constructed
coroutine body unconditionally raises `RuntimeError` for any keyword
arguments — tools declared by the frontend are never executable backend
side. -/
def create_strands_tool_from_agui (t : AGUITool) : StrandsTool :=
  { name := t.name
    doc := t.description
    invoke := fun _ =>
      .error ("Frontend tool " ++ t.name ++
        " was executed in backend - this indicates improper AG-UI integration") }

/-! ## Event classification -/

def isRunStartedEv : AGUIEvent → Bool
  | .runStarted _ _ => true
  | _ => false

def isTerminalEv : AGUIEvent → Bool
  | .runFinished _ _ _ => true
  | .runError _ _ => true
  | _ => false

def isToolCallEndEv : AGUIEvent → Bool
  | .toolCallEnd _ => true
  | _ => false

def isToolCallArgsEv : AGUIEvent → Bool
  | .toolCallArgs _ _ => true
  | _ => false

def isToolCallStartEv : AGUIEvent → Bool
  | .toolCallStart _ _ => true
  | _ => false

def isToolUseItem : ContentItem → Bool
  | .toolUseItem _ => true
  | _ => false

/-- Does the stream end in a terminal event? -/
def lastIsTerminal (evs : List AGUIEvent) : Bool :=
  match evs.getLast? with
  | some e => isTerminalEv e
  | none => false

def isToolUseBlock : StrandsBlock → Bool
  | .toolUseBlock _ _ _ => true
  | _ => false

def isToolResultMsg : AGUIMessage → Bool
  | .toolMsg _ _ _ _ => true
  | _ => false

def isAssistantMsg : AGUIMessage → Bool
  | .assistant _ _ _ => true
  | _ => false

/-- Does any upstream item carry the tool-pause stop reason? -/
def traceHasToolUseStop (trace : List UpstreamItem) : Bool :=
  trace.any fun it =>
    match it with
    | .evt se => isToolUseStop se
    | .raiseErr _ => false

/-- The `run_streaming` engine-stream pump, started from the freshly
created execution state (`agent.py:302-307, 344-362`). -/
def startRunLoop (input : RunAgentInput) (trace : List UpstreamItem) : LoopResult :=
  runLoop trace (initExecutionState input.threadId input.runId) false

/-! ## Concrete fixtures used by counterexamples and witnesses -/

/-- Scenario B tool-use payload: id `t1`, name `calculator`, empty
input. -/
def tuCalcEmpty : ToolUseData := ⟨some "t1", some "calculator", some (.pyDict [])⟩

/-- Scenario B streamed update: same id with the revised input
`\x7b"expression": "2+2"\x7d`. -/
def tuCalcExpr : ToolUseData :=
  ⟨some "t1", some "calculator", some (.pyDict [("expression", "2+2")])⟩

/-- A run-start payload with one user message and one declared tool. -/
def exInput : RunAgentInput := ⟨"t", "r", [.user "m1" "hi"], [⟨"calculator", "calc"⟩]⟩

/-- Execution state with `t1` registered with its initial empty input (the
state reached after translating the first `current_tool_use` event for
`t1`). -/
def exC1St : ExecutionState :=
  ⟨"t", "r", [("t1", ⟨"calculator", .pyDict []⟩)], [], none, false, 0⟩

/-- Execution state with `t1` registered carrying the revised input. -/
def exRegisteredExprSt : ExecutionState :=
  ⟨"t", "r", [("t1", ⟨"calculator", .pyDict [("expression", "2+2")]⟩)], [], none, false, 0⟩

/-- Upstream trace of a run that pauses for tools: one tool-use streaming
update, then the `tool_use` stop reason. -/
def exPauseTrace : List UpstreamItem :=
  [.evt (.currentToolUse tuCalcEmpty), .evt (.eventWrapped (.messageStop (some "tool_use")))]

/-- Upstream trace containing a tool call but no tool-pause stop reason:
the stream simply ends. -/
def exC4Trace : List UpstreamItem := [.evt (.currentToolUse tuCalcEmpty)]

/-- Upstream trace of a run that pauses for tools while a text message is
still open: message start, a text delta, a tool-use streaming update, then
the `tool_use` stop reason. -/
def exTextPauseTrace : List UpstreamItem :=
  [.evt (.eventWrapped .messageStart),
   .evt (.eventWrapped (.contentBlockDelta (some "Hi"))),
   .evt (.currentToolUse tuCalcEmpty),
   .evt (.eventWrapped (.messageStop (some "tool_use")))]

/-- The paused run over `exPauseTrace`. -/
def exPausedRun : RunStreamOutput := run_streaming exInput exPauseTrace []

/-- Resuming the paused run with a result for `t1` and an empty
continuation stream. -/
def exResume : ContinueOutput :=
  continue_after_tools "t" "r" [("t1", "4")] [] exPausedRun.store []

/-- The full downstream stream of the pause/resume lifecycle. -/
def exLifecycleEvents : List AGUIEvent := exPausedRun.events ++ exResume.events

/-- The execution state stored for `exPausedRun`. -/
def exPausedState : ExecutionState :=
  ⟨"t", "r", [("t1", ⟨"calculator", .pyDict []⟩)], [], none, true, 0⟩

/-- The execution state stored after `exResume` completes. -/
def exResumedState : ExecutionState :=
  ⟨"t", "r", [("t1", ⟨"calculator", .pyDict []⟩)], [("t1", "4")], some "uuid-0", true, 1⟩

/-- Upstream trace delivering an empty-text content delta. -/
def exEmptyDeltaTrace : List UpstreamItem :=
  [.evt (.eventWrapped (.contentBlockDelta (some "")))]

/-- Upstream trace delivering a message start followed by the text delta
`"Hi"`. -/
def exTextTrace : List UpstreamItem :=
  [.evt (.eventWrapped .messageStart), .evt (.eventWrapped (.contentBlockDelta (some "Hi")))]

/-- Inbound history carrying a tool result with no prior assistant
tool-use turn, plus a system message: the shape §4.3 step 3 of the spec
says triggers system-message exclusion and tool-use synthesis. -/
def exC9Msgs : List AGUIMessage :=
  [.system "s1" "be nice", .user "m1" "hi", .toolMsg "tm1" "4" "t1" none]

/-- What the code actually produces for `exC9Msgs`: every message
converted in order, the system turn retained, nothing synthesized. -/
def exC9Strands : List StrandsMessage :=
  [⟨"system", [.textBlock "be nice"]⟩,
   ⟨"user", [.textBlock "hi"]⟩,
   ⟨"user", [.toolResultBlock "t1" "4" "success"]⟩]

/-! ## Helper lemmas -/

theorem dictInsert_ne_nil {α : Type} (d : List (String × α)) (k : String) (v : α) :
    dictInsert d k v ≠ [] := by
  cases d with
  | nil => simp [dictInsert]
  | cons hd tl =>
      obtain ⟨k0, v0⟩ := hd
      simp only [dictInsert]
      split <;> simp

theorem dictLookup_dictInsert {α : Type} (d : List (String × α)) (k key : String) (v : α) :
    dictLookup (dictInsert d k v) key = if k = key then some v else dictLookup d key := by
  induction d with
  | nil =>
      by_cases hk : k = key <;> simp [dictInsert, dictLookup, hk]
  | cons hd tl ih =>
      obtain ⟨k0, v0⟩ := hd
      by_cases h0 : k0 = k
      · subst h0
        by_cases hk : k0 = key <;> simp [dictInsert, dictLookup, hk]
      · by_cases hk : k0 = key
        · subst hk
          have : ¬ k = k0 := fun h => h0 h.symm
          simp [dictInsert, dictLookup, h0, this]
        · simp [dictInsert, dictLookup, h0, hk, ih]

theorem toolCallEnd_classify (e : AGUIEvent) (h : isToolCallEndEv e = true) :
    isRunStartedEv e = false ∧ isTerminalEv e = false ∧ isToolEvent e = true ∧
      isToolCallArgsEv e = false ∧ ∀ mid d, e ≠ .textMessageContent mid d := by
  cases e <;> simp_all [isToolCallEndEv, isRunStartedEv, isTerminalEv, isToolEvent,
    isToolCallArgsEv]

theorem any_toolEvent_of_all_end (l : List AGUIEvent)
    (h : ∀ e ∈ l, isToolCallEndEv e = true) :
    (l.any isToolEvent = true ↔ l ≠ []) := by
  cases l with
  | nil => simp
  | cons e rest =>
      have he := toolCallEnd_classify e (h e (by simp))
      simp [List.any_cons, he.2.2.1]

theorem getToolUseId_fields (tu : ToolUseData) (st : ExecutionState) :
    (getToolUseId tu st).2.pendingTools = st.pendingTools ∧
    (getToolUseId tu st).2.waitingForTools = st.waitingForTools ∧
    (getToolUseId tu st).2.currentMessageId = st.currentMessageId := by
  cases h : tu.toolUseId <;> simp [getToolUseId, h]

theorem snapshotStep_props (st : ExecutionState) (item : ContentItem) :
    (∀ e ∈ (snapshotStep st item).1, isToolCallEndEv e = true) ∧
    ((snapshotStep st item).2.waitingForTools = st.waitingForTools) ∧
    (st.pendingTools ≠ [] → (snapshotStep st item).2.pendingTools ≠ []) ∧
    (st.pendingTools = [] →
      ((snapshotStep st item).1 ≠ [] ↔ (snapshotStep st item).2.pendingTools ≠ [])) ∧
    ((snapshotStep st item).1.length = if isToolUseItem item then 1 else 0) := by
  cases item with
  | otherItem => simp [snapshotStep, isToolUseItem]
  | toolUseItem tu =>
      cases hid : tu.toolUseId with
      | none =>
          cases hl : dictLookup st.pendingTools (freshId st.fresh) with
          | none =>
              refine ⟨?_, ?_, ?_, ?_, ?_⟩
              · simp [snapshotStep, getToolUseId, hid, hl, isToolCallEndEv]
              · simp [snapshotStep, getToolUseId, hid, hl]
              · intro _
                simp [snapshotStep, getToolUseId, hid, hl, dictInsert_ne_nil]
              · intro _
                simp [snapshotStep, getToolUseId, hid, hl, dictInsert_ne_nil]
              · simp [snapshotStep, getToolUseId, hid, hl, isToolUseItem]
          | some pt =>
              refine ⟨?_, ?_, ?_, ?_, ?_⟩
              · simp [snapshotStep, getToolUseId, hid, hl, isToolCallEndEv]
              · simp [snapshotStep, getToolUseId, hid, hl]
              · intro h
                simpa [snapshotStep, getToolUseId, hid, hl] using h
              · intro h
                rw [h] at hl
                simp [dictLookup] at hl
              · simp [snapshotStep, getToolUseId, hid, hl, isToolUseItem]
      | some i =>
          cases hl : dictLookup st.pendingTools i with
          | none =>
              refine ⟨?_, ?_, ?_, ?_, ?_⟩
              · simp [snapshotStep, getToolUseId, hid, hl, isToolCallEndEv]
              · simp [snapshotStep, getToolUseId, hid, hl]
              · intro _
                simp [snapshotStep, getToolUseId, hid, hl, dictInsert_ne_nil]
              · intro _
                simp [snapshotStep, getToolUseId, hid, hl, dictInsert_ne_nil]
              · simp [snapshotStep, getToolUseId, hid, hl, isToolUseItem]
          | some pt =>
              refine ⟨?_, ?_, ?_, ?_, ?_⟩
              · simp [snapshotStep, getToolUseId, hid, hl, isToolCallEndEv]
              · simp [snapshotStep, getToolUseId, hid, hl]
              · intro h
                simpa [snapshotStep, getToolUseId, hid, hl] using h
              · intro h
                rw [h] at hl
                simp [dictLookup] at hl
              · simp [snapshotStep, getToolUseId, hid, hl, isToolUseItem]

theorem snapshotStep_preserves_mem (st : ExecutionState) (item : ContentItem) (i : String)
    (h : (dictLookup st.pendingTools i).isSome = true) :
    (dictLookup (snapshotStep st item).2.pendingTools i).isSome = true := by
  cases item with
  | otherItem => simpa [snapshotStep] using h
  | toolUseItem tu =>
      cases hid : tu.toolUseId with
      | none =>
          cases hl : dictLookup st.pendingTools (freshId st.fresh) <;>
            simp_all [snapshotStep, getToolUseId, dictLookup_dictInsert] <;>
            split <;> simp_all
      | some j =>
          cases hl : dictLookup st.pendingTools j <;>
            simp_all [snapshotStep, getToolUseId, dictLookup_dictInsert] <;>
            split <;> simp_all

theorem snapshotStep_registers (st : ExecutionState) (tu : ToolUseData) (i : String)
    (hid : tu.toolUseId = some i) :
    (dictLookup (snapshotStep st (.toolUseItem tu)).2.pendingTools i).isSome = true := by
  cases hl : dictLookup st.pendingTools i <;>
    simp_all [snapshotStep, getToolUseId, dictLookup_dictInsert]

theorem processSnapshotItems_props (items : List ContentItem) (st : ExecutionState) :
    (∀ e ∈ (processSnapshotItems items st).1, isToolCallEndEv e = true) ∧
    ((processSnapshotItems items st).2.waitingForTools = st.waitingForTools) ∧
    (st.pendingTools ≠ [] → (processSnapshotItems items st).2.pendingTools ≠ []) ∧
    (st.pendingTools = [] →
      ((processSnapshotItems items st).1 ≠ [] ↔
        (processSnapshotItems items st).2.pendingTools ≠ [])) ∧
    ((processSnapshotItems items st).1.length = items.countP isToolUseItem) := by
  induction items generalizing st with
  | nil => simp [processSnapshotItems]
  | cons item rest ih =>
      obtain ⟨hstep_end, hstep_wait, hstep_mono, hstep_iff, hstep_len⟩ :=
        snapshotStep_props st item
      obtain ⟨hrest_end, hrest_wait, hrest_mono, hrest_iff, hrest_len⟩ :=
        ih (snapshotStep st item).2
      refine ⟨?_, ?_, ?_, ?_, ?_⟩
      · intro e he
        simp only [processSnapshotItems, List.mem_append] at he
        rcases he with he | he
        · exact hstep_end e he
        · exact hrest_end e he
      · simp only [processSnapshotItems]
        rw [hrest_wait, hstep_wait]
      · intro h
        simp only [processSnapshotItems]
        exact hrest_mono (hstep_mono h)
      · intro h
        simp only [processSnapshotItems]
        by_cases hstep : (snapshotStep st item).1 = []
        · have hempty : (snapshotStep st item).2.pendingTools = [] := by
            by_contra hne
            exact absurd hstep ((hstep_iff h).mpr hne)
          rw [hstep]
          simpa using hrest_iff hempty
        · have hne : (snapshotStep st item).2.pendingTools ≠ [] := (hstep_iff h).mp hstep
          constructor
          · intro _
            exact hrest_mono hne
          · intro _
            intro hcontra
            exact hstep (List.append_eq_nil.mp hcontra).1
      · simp only [processSnapshotItems, List.length_append, List.countP_cons]
        rw [hrest_len, hstep_len]
        cases item <;> simp [isToolUseItem] <;> omega

theorem processSnapshotItems_preserves_mem (items : List ContentItem)
    (st : ExecutionState) (i : String) (h : (dictLookup st.pendingTools i).isSome = true) :
    (dictLookup (processSnapshotItems items st).2.pendingTools i).isSome = true := by
  induction items generalizing st with
  | nil => simpa [processSnapshotItems] using h
  | cons item rest ih =>
      simp only [processSnapshotItems]
      exact ih _ (snapshotStep_preserves_mem st item i h)

theorem processSnapshotItems_registers (items : List ContentItem) (st : ExecutionState)
    (tu : ToolUseData) (i : String) (hmem : ContentItem.toolUseItem tu ∈ items)
    (hid : tu.toolUseId = some i) :
    (dictLookup (processSnapshotItems items st).2.pendingTools i).isSome = true := by
  induction items generalizing st with
  | nil => simp at hmem
  | cons item rest ih =>
      rcases List.mem_cons.mp hmem with heq | htail
      · subst heq
        simp only [processSnapshotItems]
        exact processSnapshotItems_preserves_mem rest _ i
          (snapshotStep_registers st tu i hid)
      · simp only [processSnapshotItems]
        exact ih _ htail

theorem convert_ok_props {se : StrandsEvent} {st : ExecutionState} {evs : List AGUIEvent}
    {st' : ExecutionState} (h : convert_strands_to_agui_events se st = .ok evs st') :
    (∀ e ∈ evs, isRunStartedEv e = false ∧ isTerminalEv e = false) ∧
    (∀ mid d, AGUIEvent.textMessageContent mid d ∈ evs → d ≠ "") ∧
    st'.waitingForTools = st.waitingForTools ∧
    (st.pendingTools ≠ [] → st'.pendingTools ≠ []) ∧
    (st.pendingTools = [] → ((evs.any isToolEvent = true) ↔ st'.pendingTools ≠ [])) := by
  cases se with
  | unrecognized =>
      simp only [convert_strands_to_agui_events, TranslateResult.ok.injEq] at h
      obtain ⟨rfl, rfl⟩ := h
      simp
  | eventWrapped inner =>
      cases inner with
      | messageStart =>
          cases hm : st.currentMessageId with
          | some mid =>
              simp only [convert_strands_to_agui_events, handleMessageStart, hm,
                TranslateResult.ok.injEq] at h
              obtain ⟨rfl, rfl⟩ := h
              simp
          | none =>
              simp only [convert_strands_to_agui_events, handleMessageStart, hm,
                TranslateResult.ok.injEq] at h
              obtain ⟨rfl, rfl⟩ := h
              simp [isRunStartedEv, isTerminalEv, isToolEvent]
      | contentBlockDelta text =>
          cases text with
          | none =>
              simp only [convert_strands_to_agui_events, handleContentDelta,
                TranslateResult.ok.injEq] at h
              obtain ⟨rfl, rfl⟩ := h
              simp
          | some txt =>
              by_cases ht : txt = ""
              · cases hm : st.currentMessageId <;>
                  simp [convert_strands_to_agui_events, handleContentDelta, hm, ht] at h
              · cases hm : st.currentMessageId with
                | some mid =>
                    simp only [convert_strands_to_agui_events, handleContentDelta, hm,
                      if_neg ht, TranslateResult.ok.injEq] at h
                    obtain ⟨rfl, rfl⟩ := h
                    refine ⟨by simp [isRunStartedEv, isTerminalEv], ?_, by simp, by simp,
                      by simp [isToolEvent]⟩
                    intro mid' d hd
                    simp only [List.mem_singleton, AGUIEvent.textMessageContent.injEq] at hd
                    exact hd.2 ▸ ht
                | none =>
                    simp only [convert_strands_to_agui_events, handleContentDelta, hm,
                      if_neg ht, TranslateResult.ok.injEq] at h
                    obtain ⟨rfl, rfl⟩ := h
                    refine ⟨by simp [isRunStartedEv, isTerminalEv], ?_, by simp, by simp,
                      by simp [isToolEvent]⟩
                    intro mid' d hd
                    simp only [List.mem_cons, List.mem_singleton,
                      AGUIEvent.textMessageContent.injEq] at hd
                    rcases hd with hd | hd | hd
                    · exact absurd hd (by simp)
                    · exact hd.2 ▸ ht
                    · simp at hd
      | contentBlockStart toolUse =>
          cases toolUse with
          | none =>
              simp only [convert_strands_to_agui_events, handleContentBlockStart,
                TranslateResult.ok.injEq] at h
              obtain ⟨rfl, rfl⟩ := h
              simp
          | some tu =>
              cases hid : tu.toolUseId with
              | some i =>
                  simp only [convert_strands_to_agui_events, handleContentBlockStart,
                    getToolUseId, hid, TranslateResult.ok.injEq] at h
                  obtain ⟨rfl, rfl⟩ := h
                  simp [isRunStartedEv, isTerminalEv, isToolEvent, dictInsert_ne_nil]
              | none =>
                  simp only [convert_strands_to_agui_events, handleContentBlockStart,
                    getToolUseId, hid, TranslateResult.ok.injEq] at h
                  obtain ⟨rfl, rfl⟩ := h
                  simp [isRunStartedEv, isTerminalEv, isToolEvent, dictInsert_ne_nil]
      | messageStop r =>
          simp only [convert_strands_to_agui_events, TranslateResult.ok.injEq] at h
          obtain ⟨rfl, rfl⟩ := h
          simp
      | otherInner =>
          simp only [convert_strands_to_agui_events, TranslateResult.ok.injEq] at h
          obtain ⟨rfl, rfl⟩ := h
          simp
  | currentToolUse tu =>
      cases hid : tu.toolUseId with
      | some i =>
          cases hl : dictLookup st.pendingTools i with
          | some pt =>
              simp only [convert_strands_to_agui_events, handleCurrentToolUse,
                getToolUseId, hid, hl, TranslateResult.ok.injEq] at h
              obtain ⟨rfl, rfl⟩ := h
              refine ⟨by simp [isRunStartedEv, isTerminalEv], by simp, by simp,
                fun hp => hp, ?_⟩
              intro hp
              rw [hp] at hl
              simp [dictLookup] at hl
          | none =>
              simp only [convert_strands_to_agui_events, handleCurrentToolUse,
                getToolUseId, hid, hl, TranslateResult.ok.injEq] at h
              obtain ⟨rfl, rfl⟩ := h
              simp [isRunStartedEv, isTerminalEv, isToolEvent, dictInsert_ne_nil]
      | none =>
          cases hl : dictLookup st.pendingTools (freshId st.fresh) with
          | some pt =>
              simp only [convert_strands_to_agui_events, handleCurrentToolUse,
                getToolUseId, hid, hl, TranslateResult.ok.injEq] at h
              obtain ⟨rfl, rfl⟩ := h
              refine ⟨by simp [isRunStartedEv, isTerminalEv], by simp, by simp,
                fun hp => hp, ?_⟩
              intro hp
              rw [hp] at hl
              simp [dictLookup] at hl
          | none =>
              simp only [convert_strands_to_agui_events, handleCurrentToolUse,
                getToolUseId, hid, hl, TranslateResult.ok.injEq] at h
              obtain ⟨rfl, rfl⟩ := h
              simp [isRunStartedEv, isTerminalEv, isToolEvent, dictInsert_ne_nil]
  | messageEvt msg =>
      by_cases hrole : msg.role = some "assistant"
      · cases hc : msg.content with
        | none =>
            simp only [convert_strands_to_agui_events, handleMessage, hrole, hc, if_pos,
              TranslateResult.ok.injEq] at h
            obtain ⟨rfl, rfl⟩ := h
            simp
        | some items =>
            simp only [convert_strands_to_agui_events, handleMessage, hrole, hc, if_pos,
              TranslateResult.ok.injEq] at h
            obtain ⟨rfl, rfl⟩ := h
            obtain ⟨hend, hwait, hmono, hiff, _⟩ := processSnapshotItems_props items st
            refine ⟨?_, ?_, hwait, hmono, ?_⟩
            · intro e he
              have hc := toolCallEnd_classify e (hend e he)
              exact ⟨hc.1, hc.2.1⟩
            · intro mid d hd
              exact absurd rfl ((toolCallEnd_classify _ (hend _ hd)).2.2.2.2 mid d)
            · intro hp
              rw [any_toolEvent_of_all_end _ hend]
              exact hiff hp
      · simp only [convert_strands_to_agui_events, handleMessage, hrole, if_neg,
          TranslateResult.ok.injEq] at h
        obtain ⟨rfl, rfl⟩ := h
        simp

theorem convert_error_props {se : StrandsEvent} {st : ExecutionState} {msg : String}
    {st' : ExecutionState} (h : convert_strands_to_agui_events se st = .error msg st') :
    st'.waitingForTools = st.waitingForTools ∧ st'.pendingTools = st.pendingTools := by
  cases se with
  | unrecognized => simp [convert_strands_to_agui_events] at h
  | eventWrapped inner =>
      cases inner with
      | messageStart =>
          cases hm : st.currentMessageId <;>
            simp [convert_strands_to_agui_events, handleMessageStart, hm] at h
      | contentBlockDelta text =>
          cases text with
          | none => simp [convert_strands_to_agui_events, handleContentDelta] at h
          | some txt =>
              by_cases ht : txt = ""
              · cases hm : st.currentMessageId with
                | some mid =>
                    simp only [convert_strands_to_agui_events, handleContentDelta, hm,
                      if_pos ht, TranslateResult.error.injEq] at h
                    obtain ⟨rfl, rfl⟩ := h
                    exact ⟨rfl, rfl⟩
                | none =>
                    simp only [convert_strands_to_agui_events, handleContentDelta, hm,
                      if_pos ht, TranslateResult.error.injEq] at h
                    obtain ⟨rfl, rfl⟩ := h
                    exact ⟨rfl, rfl⟩
              · cases hm : st.currentMessageId <;>
                  simp [convert_strands_to_agui_events, handleContentDelta, hm, ht] at h
      | contentBlockStart toolUse =>
          cases toolUse with
          | none => simp [convert_strands_to_agui_events, handleContentBlockStart] at h
          | some tu =>
              cases hid : tu.toolUseId <;>
                simp [convert_strands_to_agui_events, handleContentBlockStart,
                  getToolUseId, hid] at h
      | messageStop r => simp [convert_strands_to_agui_events] at h
      | otherInner => simp [convert_strands_to_agui_events] at h
  | currentToolUse tu =>
      cases hid : tu.toolUseId with
      | some i =>
          cases hl : dictLookup st.pendingTools i <;>
            simp [convert_strands_to_agui_events, handleCurrentToolUse, getToolUseId,
              hid, hl] at h
      | none =>
          cases hl : dictLookup st.pendingTools (freshId st.fresh) <;>
            simp [convert_strands_to_agui_events, handleCurrentToolUse, getToolUseId,
              hid, hl] at h
  | messageEvt msg' =>
      by_cases hrole : msg'.role = some "assistant"
      · cases hc : msg'.content <;>
          simp [convert_strands_to_agui_events, handleMessage, hrole, hc] at h
      · simp [convert_strands_to_agui_events, handleMessage, hrole] at h

theorem runLoop_props (trace : List UpstreamItem) (st : ExecutionState) (htc : Bool) :
    (∀ e ∈ (runLoop trace st htc).events,
      isRunStartedEv e = false ∧ isTerminalEv e = false) ∧
    (∀ mid d, AGUIEvent.textMessageContent mid d ∈ (runLoop trace st htc).events → d ≠ "") ∧
    ((runLoop trace st htc).st.waitingForTools = st.waitingForTools) ∧
    (st.pendingTools ≠ [] → (runLoop trace st htc).st.pendingTools ≠ []) ∧
    ((st.pendingTools = [] ∧ htc = false) →
      ((runLoop trace st htc).hasToolCalls = true ↔
        (runLoop trace st htc).st.pendingTools ≠ [])) ∧
    (htc = true → (runLoop trace st htc).hasToolCalls = true) := by
  induction trace generalizing st htc with
  | nil =>
      refine ⟨by simp [runLoop], by simp [runLoop], by simp [runLoop],
        fun hp => by simpa [runLoop] using hp, ?_, fun hh => by simpa [runLoop] using hh⟩
      rintro ⟨hp, hh⟩
      simp [runLoop, hh, hp]
  | cons it rest ih =>
      cases it with
      | raiseErr msg =>
          refine ⟨by simp [runLoop], by simp [runLoop], by simp [runLoop],
            fun hp => by simpa [runLoop] using hp, ?_, fun hh => by simpa [runLoop] using hh⟩
          rintro ⟨hp, hh⟩
          simp [runLoop, hh, hp]
      | evt se =>
          cases hcv : convert_strands_to_agui_events se st with
          | error msg st1 =>
              have hred : runLoop (.evt se :: rest) st htc = ⟨[], st1, htc, false, some msg⟩ := by
                simp [runLoop, hcv]
              obtain ⟨hw, hpend⟩ := convert_error_props hcv
              rw [hred]
              refine ⟨by simp, by simp, hw, ?_, ?_, fun hh => hh⟩
              · intro hp
                simpa [hpend] using hp
              · rintro ⟨hp, hh⟩
                simp [hh, hpend, hp]
          | ok evs st1 =>
              obtain ⟨hcls, hcontent, hwait, hmono, hiff⟩ := convert_ok_props hcv
              by_cases hstop : isToolUseStop se = true
              · have hred : runLoop (.evt se :: rest) st htc =
                    ⟨evs, st1, htc || evs.any isToolEvent, true, none⟩ := by
                  simp [runLoop, hcv, hstop]
                rw [hred]
                refine ⟨hcls, hcontent, hwait, hmono, ?_, fun hh => by simp [hh]⟩
                rintro ⟨hp, hh⟩
                simpa [hh] using hiff hp
              · have hstop' : isToolUseStop se = false := by simpa using hstop
                obtain ⟨ih_cls, ih_content, ih_wait, ih_mono, ih_iff, ih_htc⟩ :=
                  ih st1 (htc || evs.any isToolEvent)
                have hred : runLoop (.evt se :: rest) st htc =
                    ⟨evs ++ (runLoop rest st1 (htc || evs.any isToolEvent)).events,
                     (runLoop rest st1 (htc || evs.any isToolEvent)).st,
                     (runLoop rest st1 (htc || evs.any isToolEvent)).hasToolCalls,
                     (runLoop rest st1 (htc || evs.any isToolEvent)).shouldPause,
                     (runLoop rest st1 (htc || evs.any isToolEvent)).errored⟩ := by
                  simp [runLoop, hcv, hstop']
                rw [hred]
                refine ⟨?_, ?_, ih_wait.trans hwait, fun hp => ih_mono (hmono hp), ?_,
                  fun hh => ih_htc (by simp [hh])⟩
                · intro e he
                  rcases List.mem_append.mp he with he | he
                  · exact hcls e he
                  · exact ih_cls e he
                · intro mid d hd
                  rcases List.mem_append.mp hd with hd | hd
                  · exact hcontent mid d hd
                  · exact ih_content mid d hd
                · rintro ⟨hp, hh⟩
                  by_cases hany : evs.any isToolEvent = true
                  · have h1 : st1.pendingTools ≠ [] := (hiff hp).mp hany
                    have hT : (runLoop rest st1 (htc || evs.any isToolEvent)).hasToolCalls
                        = true := ih_htc (by simp [hh, hany])
                    simp [hT, ih_mono h1]
                  · have hfalse : evs.any isToolEvent = false := by simpa using hany
                    have h1 : st1.pendingTools = [] := by
                      by_contra hne
                      exact hany ((hiff hp).mpr hne)
                    exact ih_iff ⟨h1, by simp [hh, hfalse]⟩

theorem runLoop_halt (trace post : List UpstreamItem) (st : ExecutionState) (htc : Bool)
    (hp : (runLoop trace st htc).shouldPause = true) :
    runLoop (trace ++ post) st htc = runLoop trace st htc := by
  induction trace generalizing st htc with
  | nil => simp [runLoop] at hp
  | cons it rest ih =>
      cases it with
      | raiseErr msg => simp [runLoop] at hp
      | evt se =>
          cases hcv : convert_strands_to_agui_events se st with
          | error msg st1 => simp [runLoop, hcv] at hp
          | ok evs st1 =>
              by_cases hstop : isToolUseStop se = true
              · simp [runLoop, hcv, hstop]
              · have hstop' : isToolUseStop se = false := by simpa using hstop
                have hp' : (runLoop rest st1 (htc || evs.any isToolEvent)).shouldPause
                    = true := by
                  simpa [runLoop, hcv, hstop'] using hp
                simp [runLoop, hcv, hstop', ih _ _ hp']

theorem continueLoop_props (trace : List UpstreamItem) (st : ExecutionState) :
    (∀ e ∈ (continueLoop trace st).events,
      isRunStartedEv e = false ∧ isTerminalEv e = false) ∧
    (∀ mid d, AGUIEvent.textMessageContent mid d ∈ (continueLoop trace st).events →
      d ≠ "") ∧
    ((continueLoop trace st).st.waitingForTools = st.waitingForTools) := by
  induction trace generalizing st with
  | nil => simp [continueLoop]
  | cons it rest ih =>
      cases it with
      | raiseErr msg => simp [continueLoop]
      | evt se =>
          cases hcv : convert_strands_to_agui_events se st with
          | error msg st1 =>
              have hred : continueLoop (.evt se :: rest) st = ⟨[], st1, some msg⟩ := by
                simp [continueLoop, hcv]
              rw [hred]
              exact ⟨by simp, by simp, (convert_error_props hcv).1⟩
          | ok evs st1 =>
              obtain ⟨hcls, hcontent, hwait, _, _⟩ := convert_ok_props hcv
              obtain ⟨ih_cls, ih_content, ih_wait⟩ := ih st1
              have hred : continueLoop (.evt se :: rest) st =
                  ⟨evs ++ (continueLoop rest st1).events, (continueLoop rest st1).st,
                   (continueLoop rest st1).errored⟩ := by
                simp [continueLoop, hcv]
              rw [hred]
              refine ⟨?_, ?_, ih_wait.trans hwait⟩
              · intro e he
                rcases List.mem_append.mp he with he | he
                · exact hcls e he
                · exact ih_cls e he
              · intro mid d hd
                rcases List.mem_append.mp hd with hd | hd
                · exact hcontent mid d hd
                · exact ih_content mid d hd

theorem dictLookup_dictInsert_self {α : Type} (d : List (String × α)) (k : String) (v : α) :
    dictLookup (dictInsert d k v) k = some v := by
  simp [dictLookup_dictInsert]

theorem closeEvents_stream (mid : Option String) :
    ∀ e ∈ closeEvents mid, isRunStartedEv e = false ∧ isTerminalEv e = false ∧
      ∀ m d, e ≠ .textMessageContent m d := by
  cases mid <;> simp [closeEvents, isRunStartedEv, isTerminalEv]

/-- Every `run_streaming` stream is a `RunStarted` followed by stream
events and exactly one trailing terminal event. -/
theorem run_streaming_cases (input : RunAgentInput) (trace : List UpstreamItem)
    (store : Store) :
    ∃ (mids : List AGUIEvent) (term : AGUIEvent),
      (run_streaming input trace store).events =
        .runStarted input.threadId input.runId :: (mids ++ [term]) ∧
      (∀ e ∈ mids, isRunStartedEv e = false ∧ isTerminalEv e = false) ∧
      (∀ m d, AGUIEvent.textMessageContent m d ∈ mids → d ≠ "") ∧
      isTerminalEv term = true ∧ isRunStartedEv term = false ∧
      (∀ m d, term ≠ .textMessageContent m d) := by
  cases hprep : prepareMessages input.messages with
  | error e =>
      refine ⟨[], .runError e "AGENT_ERROR", ?_, by simp, by simp, by simp [isTerminalEv],
        by simp [isRunStartedEv], by simp⟩
      simp [run_streaming, hprep]
  | ok msgs =>
      obtain ⟨hcls, hcontent, _, _, _, _⟩ :=
        runLoop_props trace (initExecutionState input.threadId input.runId) false
      cases herr : (runLoop trace (initExecutionState input.threadId input.runId)
          false).errored with
      | some m =>
          refine ⟨(runLoop trace (initExecutionState input.threadId input.runId)
              false).events, .runError m "AGENT_ERROR", ?_, hcls, hcontent,
            by simp [isTerminalEv], by simp [isRunStartedEv], by simp⟩
          simp [run_streaming, hprep, herr]
      | none =>
          have hmid : ∀ e ∈ (runLoop trace (initExecutionState input.threadId
              input.runId) false).events ++
              closeEvents (runLoop trace (initExecutionState input.threadId
                input.runId) false).st.currentMessageId,
              isRunStartedEv e = false ∧ isTerminalEv e = false := by
            intro e he
            rcases List.mem_append.mp he with he | he
            · exact hcls e he
            · exact ⟨(closeEvents_stream _ e he).1, (closeEvents_stream _ e he).2.1⟩
          have hmidc : ∀ m d, AGUIEvent.textMessageContent m d ∈
              (runLoop trace (initExecutionState input.threadId input.runId)
                false).events ++
              closeEvents (runLoop trace (initExecutionState input.threadId
                input.runId) false).st.currentMessageId → d ≠ "" := by
            intro m d hd
            rcases List.mem_append.mp hd with hd | hd
            · exact hcontent m d hd
            · exact absurd rfl ((closeEvents_stream _ _ hd).2.2 m d)
          cases hb : ((runLoop trace (initExecutionState input.threadId input.runId)
                false).hasToolCalls ||
              ((runLoop trace (initExecutionState input.threadId input.runId)
                false).shouldPause &&
               !(runLoop trace (initExecutionState input.threadId input.runId)
                false).st.pendingTools.isEmpty)) &&
              !(runLoop trace (initExecutionState input.threadId input.runId)
                false).st.pendingTools.isEmpty with
          | true =>
              refine ⟨_, .runFinished input.threadId input.runId
                  (.waitingForTools (toolCallSummary (runLoop trace
                    (initExecutionState input.threadId input.runId)
                    false).st.pendingTools)), ?_, hmid, hmidc,
                by simp [isTerminalEv], by simp [isRunStartedEv], by simp⟩
              simp only [run_streaming, hprep, herr, hb, if_true]
              simp
          | false =>
              refine ⟨_, .runFinished input.threadId input.runId .completed, ?_, hmid,
                hmidc, by simp [isTerminalEv], by simp [isRunStartedEv], by simp⟩
              simp only [run_streaming, hprep, herr, hb, if_false]
              simp

/-- Every `continue_after_tools` stream is stream events followed by
exactly one trailing terminal event, with no `RunStarted` anywhere. -/
theorem continue_cases (tid rid : String) (results : List (String × String))
    (trace : List UpstreamItem) (store : Store) (msgs : List StrandsMessage) :
    ∃ (pre : List AGUIEvent) (term : AGUIEvent),
      (continue_after_tools tid rid results trace store msgs).events = pre ++ [term] ∧
      (∀ e ∈ pre, isRunStartedEv e = false ∧ isTerminalEv e = false) ∧
      (∀ m d, AGUIEvent.textMessageContent m d ∈ pre → d ≠ "") ∧
      isTerminalEv term = true ∧ isRunStartedEv term = false ∧
      (∀ m d, term ≠ .textMessageContent m d) := by
  cases hlook : dictLookup store (storeKey tid rid) with
  | none =>
      refine ⟨[], .runError "Execution state not found" "STATE_ERROR", ?_, by simp,
        by simp, by simp [isTerminalEv], by simp [isRunStartedEv], by simp⟩
      simp [continue_after_tools, hlook]
  | some st0 =>
      obtain ⟨hcls, hcontent, _⟩ :=
        continueLoop_props trace (continueStartState st0 results)
      cases herr : (continueLoop trace (continueStartState st0 results)).errored with
      | some m =>
          refine ⟨.textMessageStart (freshId st0.fresh) "assistant" ::
              (continueLoop trace (continueStartState st0 results)).events,
            .runError m "CONTINUATION_ERROR", ?_, ?_,
            ?_, by simp [isTerminalEv], by simp [isRunStartedEv], by simp⟩
          · simp [continue_after_tools, hlook, herr]
          · intro e he
            rcases List.mem_cons.mp he with he | he
            · subst he
              exact ⟨rfl, rfl⟩
            · exact hcls e he
          · intro m' d hd
            rcases List.mem_cons.mp hd with hd | hd
            · exact absurd hd.symm (by simp)
            · exact hcontent m' d hd
      | none =>
          refine ⟨.textMessageStart (freshId st0.fresh) "assistant" ::
              ((continueLoop trace (continueStartState st0 results)).events ++
                closeEvents (continueLoop trace
                  (continueStartState st0 results)).st.currentMessageId),
            .runFinished tid rid .completed, ?_, ?_, ?_,
            by simp [isTerminalEv], by simp [isRunStartedEv], by simp⟩
          · simp [continue_after_tools, hlook, herr]
          · intro e he
            rcases List.mem_cons.mp he with he | he
            · subst he
              exact ⟨rfl, rfl⟩
            rcases List.mem_append.mp he with he | he
            · exact hcls e he
            · exact ⟨(closeEvents_stream _ e he).1, (closeEvents_stream _ e he).2.1⟩
          · intro m' d hd
            rcases List.mem_cons.mp hd with hd | hd
            · exact absurd hd.symm (by simp)
            rcases List.mem_append.mp hd with hd | hd
            · exact hcontent m' d hd
            · exact absurd rfl ((closeEvents_stream _ _ hd).2.2 m' d)

theorem getLast?_sandwich {α : Type} (a : α) (l1 l2 : List α) (f : α) :
    ([a] ++ (l1 ++ (l2 ++ [f]))).getLast? = some f := by
  have h : [a] ++ (l1 ++ (l2 ++ [f])) = (([a] ++ l1) ++ l2) ++ [f] := by
    simp [List.append_assoc]
  rw [h, List.getLast?_concat]

theorem isRunStartedEv_runStarted (t r : String) :
    isRunStartedEv (.runStarted t r) = true := rfl

theorem isTerminalEv_runStarted (t r : String) :
    isTerminalEv (.runStarted t r) = false := rfl

/-! ## Claim theorems -/

/-- C3 (counterexample): over the full pause/resume lifecycle of a paused
run, the concatenated downstream stream contains TWO terminal-kind events
(the pause `RunFinished\x7bwaiting_for_tools\x7d` and the continuation
`RunFinished\x7bcompleted\x7d`), refuting "exactly one terminal event which
is the last event" for the lifecycle reading the claim includes. -/
theorem C3_counterexample :
    exLifecycleEvents.countP isTerminalEv = 2 ∧
    exLifecycleEvents.countP isRunStartedEv = 1 := by
  constructor <;> decide

/-- C3 (amended): each `run_streaming` stream starts with exactly one
`RunStarted` and ends with exactly one terminal event, for every upstream
trace including erroring and pausing ones; each `continue_after_tools`
stream contains no `RunStarted` and ends with exactly one terminal event.
The full lifecycle of a paused run therefore contains one `RunStarted` but
two `RunFinished` events. -/
theorem C3_amended :
    (∀ (input : RunAgentInput) (trace : List UpstreamItem) (store : Store),
      (run_streaming input trace store).events.head? =
        some (.runStarted input.threadId input.runId) ∧
      (run_streaming input trace store).events.countP isRunStartedEv = 1 ∧
      (run_streaming input trace store).events.countP isTerminalEv = 1 ∧
      lastIsTerminal (run_streaming input trace store).events = true) ∧
    (∀ (tid rid : String) (results : List (String × String))
        (trace : List UpstreamItem) (store : Store) (msgs : List StrandsMessage),
      (continue_after_tools tid rid results trace store msgs).events.countP
        isRunStartedEv = 0 ∧
      (continue_after_tools tid rid results trace store msgs).events.countP
        isTerminalEv = 1 ∧
      lastIsTerminal (continue_after_tools tid rid results trace store msgs).events
        = true) := by
  constructor
  · intro input trace store
    obtain ⟨mids, term, heq, hmids, _, hterm, htermRS, _⟩ :=
      run_streaming_cases input trace store
    rw [heq]
    have h1 : mids.countP isRunStartedEv = 0 :=
      List.countP_eq_zero.mpr fun e he => by simp [(hmids e he).1]
    have h2 : mids.countP isTerminalEv = 0 :=
      List.countP_eq_zero.mpr fun e he => by simp [(hmids e he).2]
    refine ⟨rfl, ?_, ?_, ?_⟩
    · simp [List.countP_cons, List.countP_append, h1, htermRS, isRunStartedEv_runStarted]
    · simp [List.countP_cons, List.countP_append, h2, hterm, isTerminalEv_runStarted]
    · rw [lastIsTerminal, ← List.cons_append, List.getLast?_concat]
      exact hterm
  · intro tid rid results trace store msgs
    obtain ⟨pre, term, heq, hpre, _, hterm, htermRS, _⟩ :=
      continue_cases tid rid results trace store msgs
    rw [heq]
    have h1 : pre.countP isRunStartedEv = 0 :=
      List.countP_eq_zero.mpr fun e he => by simp [(hpre e he).1]
    have h2 : pre.countP isTerminalEv = 0 :=
      List.countP_eq_zero.mpr fun e he => by simp [(hpre e he).2]
    refine ⟨?_, ?_, ?_⟩
    · simp [List.countP_append, h1, htermRS]
    · simp [List.countP_append, h2, hterm]
    · simp [lastIsTerminal, List.getLast?_concat, hterm]

/-- C4 (counterexample): a run whose upstream trace contains a tool call
but NO `tool_use` stop reason still ends with
`RunFinished\x7bwaiting_for_tools\x7d`, refuting "exactly when the engine
stop reason indicates pending tool use" and "otherwise, on stream
exhaustion, the run ends with RunFinished\x7bcompleted\x7d". -/
theorem C4_counterexample :
    traceHasToolUseStop exC4Trace = false ∧
    (run_streaming exInput exC4Trace []).events.getLast? =
      some (.runFinished "t" "r" (.waitingForTools [("t1", "calculator")])) := by
  constructor <;> decide

/-- C4 (amended): when the run does not error, it ends with
`RunFinished\x7bresult: waiting_for_tools, tool_calls: [...]\x7d` exactly when
`pending_tools` is non-empty at the point streaming stops (whether the
stop reason fired or the stream was exhausted); otherwise it ends with
`RunFinished\x7bcompleted\x7d`. In either case any open text message is
closed first: its `TextMessageEnd` immediately precedes the terminal
event. When the run pauses, `waiting_for_tools` becomes true in the
stored state, and when the tool-pause stop reason fires no further
upstream events are consumed. -/
theorem C4_amended (input : RunAgentInput) (trace : List UpstreamItem) (store : Store)
    (msgs : List StrandsMessage) (hconv : prepareMessages input.messages = .ok msgs)
    (hnoerr : (startRunLoop input trace).errored = none) :
    ((run_streaming input trace store).events.getLast? =
        some (.runFinished input.threadId input.runId
          (.waitingForTools (toolCallSummary (startRunLoop input trace).st.pendingTools)))
      ↔ (startRunLoop input trace).st.pendingTools ≠ []) ∧
    ((startRunLoop input trace).st.pendingTools = [] →
      (run_streaming input trace store).events.getLast? =
        some (.runFinished input.threadId input.runId .completed)) ∧
    ((startRunLoop input trace).st.pendingTools ≠ [] →
      dictLookup (run_streaming input trace store).store
          (storeKey input.threadId input.runId) =
        some { (startRunLoop input trace).st with waitingForTools := true }) ∧
    (∀ mid, (startRunLoop input trace).st.currentMessageId = some mid →
      ∃ pre t, (run_streaming input trace store).events =
        pre ++ [.textMessageEnd mid, t] ∧ isTerminalEv t = true) ∧
    ((startRunLoop input trace).shouldPause = true →
      ∀ post, run_streaming input (trace ++ post) store = run_streaming input trace store)
    := by
  simp only [startRunLoop] at hnoerr ⊢
  have hiff := (runLoop_props trace (initExecutionState input.threadId input.runId)
    false).2.2.2.2.1 ⟨rfl, rfl⟩
  have hhalt : (runLoop trace (initExecutionState input.threadId input.runId)
      false).shouldPause = true →
      ∀ post, run_streaming input (trace ++ post) store = run_streaming input trace store := by
    intro hsp post
    have h := runLoop_halt trace post (initExecutionState input.threadId input.runId)
      false hsp
    simp only [run_streaming]
    rw [h]
  by_cases hp : (runLoop trace (initExecutionState input.threadId input.runId)
      false).st.pendingTools = []
  · have hT : (runLoop trace (initExecutionState input.threadId input.runId)
        false).hasToolCalls = false := by
      cases hT2 : (runLoop trace (initExecutionState input.threadId input.runId)
          false).hasToolCalls
      · rfl
      · exact absurd hp (hiff.mp hT2)
    have hE : (runLoop trace (initExecutionState input.threadId input.runId)
        false).st.pendingTools.isEmpty = true := by
      simp [hp]
    have hb : (((runLoop trace (initExecutionState input.threadId input.runId)
          false).hasToolCalls ||
        ((runLoop trace (initExecutionState input.threadId input.runId)
          false).shouldPause &&
         !(runLoop trace (initExecutionState input.threadId input.runId)
          false).st.pendingTools.isEmpty)) &&
        !(runLoop trace (initExecutionState input.threadId input.runId)
          false).st.pendingTools.isEmpty) = false := by
      simp [hT, hE]
    have hev : (run_streaming input trace store).events =
        .runStarted input.threadId input.runId ::
          (((runLoop trace (initExecutionState input.threadId input.runId)
              false).events ++
            closeEvents (runLoop trace (initExecutionState input.threadId input.runId)
              false).st.currentMessageId) ++
           [.runFinished input.threadId input.runId .completed]) := by
      simp [run_streaming, hconv, hnoerr, hb]
    have hlast : (run_streaming input trace store).events.getLast? =
        some (.runFinished input.threadId input.runId .completed) := by
      rw [hev, ← List.cons_append, List.getLast?_concat]
    refine ⟨?_, fun _ => hlast, fun hne => absurd hp hne, ?_, hhalt⟩
    · rw [hlast]
      constructor
      · intro hcontra
        simp at hcontra
      · intro hne
        exact absurd hp hne
    · intro mid hm
      refine ⟨.runStarted input.threadId input.runId ::
          (runLoop trace (initExecutionState input.threadId input.runId) false).events,
        .runFinished input.threadId input.runId .completed, ?_, by simp [isTerminalEv]⟩
      rw [hev, hm]
      simp [closeEvents]
  · have hT : (runLoop trace (initExecutionState input.threadId input.runId)
        false).hasToolCalls = true := hiff.mpr hp
    have hE : (runLoop trace (initExecutionState input.threadId input.runId)
        false).st.pendingTools.isEmpty = false := by
      cases hpt : (runLoop trace (initExecutionState input.threadId input.runId)
          false).st.pendingTools with
      | nil => exact absurd hpt hp
      | cons a l => simp [hpt]
    have hb : (((runLoop trace (initExecutionState input.threadId input.runId)
          false).hasToolCalls ||
        ((runLoop trace (initExecutionState input.threadId input.runId)
          false).shouldPause &&
         !(runLoop trace (initExecutionState input.threadId input.runId)
          false).st.pendingTools.isEmpty)) &&
        !(runLoop trace (initExecutionState input.threadId input.runId)
          false).st.pendingTools.isEmpty) = true := by
      simp [hT, hE]
    have hev : (run_streaming input trace store).events =
        .runStarted input.threadId input.runId ::
          (((runLoop trace (initExecutionState input.threadId input.runId)
              false).events ++
            closeEvents (runLoop trace (initExecutionState input.threadId input.runId)
              false).st.currentMessageId) ++
           [.runFinished input.threadId input.runId
             (.waitingForTools (toolCallSummary (runLoop trace
               (initExecutionState input.threadId input.runId) false).st.pendingTools))])
        := by
      simp [run_streaming, hconv, hnoerr, hb]
    have hst : (run_streaming input trace store).store =
        dictInsert store (storeKey input.threadId input.runId)
          { (runLoop trace (initExecutionState input.threadId input.runId) false).st with
              waitingForTools := true } := by
      simp [run_streaming, hconv, hnoerr, hb]
    have hlast : (run_streaming input trace store).events.getLast? =
        some (.runFinished input.threadId input.runId
          (.waitingForTools (toolCallSummary (runLoop trace
            (initExecutionState input.threadId input.runId) false).st.pendingTools))) := by
      rw [hev, ← List.cons_append, List.getLast?_concat]
    refine ⟨⟨fun _ => hp, fun _ => hlast⟩, fun hpe => absurd hpe hp, fun _ => ?_, ?_,
      hhalt⟩
    · rw [hst]
      exact dictLookup_dictInsert_self _ _ _
    · intro mid hm
      refine ⟨.runStarted input.threadId input.runId ::
          (runLoop trace (initExecutionState input.threadId input.runId) false).events,
        .runFinished input.threadId input.runId
          (.waitingForTools (toolCallSummary (runLoop trace
            (initExecutionState input.threadId input.runId) false).st.pendingTools)),
        ?_, by simp [isTerminalEv]⟩
      rw [hev, hm]
      simp [closeEvents]

theorem C4_amended_witness :
    (dictLookup (run_streaming exInput exPauseTrace []).store (storeKey "t" "r") =
      some { (startRunLoop exInput exPauseTrace).st with waitingForTools := true }) ∧
    ((startRunLoop exInput exTextPauseTrace).st.currentMessageId = some "uuid-0" ∧
      ∃ pre t, (run_streaming exInput exTextPauseTrace []).events =
        pre ++ [.textMessageEnd "uuid-0", t] ∧ isTerminalEv t = true) :=
  ⟨(C4_amended exInput exPauseTrace [] [⟨"user", [.textBlock "hi"]⟩]
      (by rfl) (by decide)).2.2.1 (by decide),
   by decide,
   (C4_amended exInput exTextPauseTrace [] [⟨"user", [.textBlock "hi"]⟩]
      (by rfl) (by decide)).2.2.2.1 "uuid-0" (by decide)⟩

/-- C1 (counterexample): after `t1` is registered by a first streaming
update, a second streaming update for `t1` emits a `ToolCallArgs` event
(the claim says no event is emitted) and leaves the stored input at its
initial value (the claim says the stored input is updated). -/
theorem C1_counterexample :
    convert_strands_to_agui_events (.currentToolUse tuCalcEmpty)
        (initExecutionState "t" "r") =
      .ok [.toolCallStart "t1" "calculator", .toolCallArgs "t1" (pyValStr (.pyDict []))]
        exC1St ∧
    convert_strands_to_agui_events (.currentToolUse tuCalcExpr) exC1St =
      .ok [.toolCallArgs "t1" (pyValStr (.pyDict [("expression", "2+2")]))] exC1St ∧
    dictLookup exC1St.pendingTools "t1" = some ⟨"calculator", .pyDict []⟩ := by
  refine ⟨?_, ?_, ?_⟩ <;> decide

/-- C1 (amended): for a tool-use streaming update whose id is already
registered in `pending_tools`, the translator emits exactly one
`ToolCallArgs` event carrying `str(input)` — one per streaming chunk, not
once per tool call — emits no `ToolCallStart`, and leaves the execution
state (including the stored input) completely unchanged. -/
theorem C1_amended (tu : ToolUseData) (st : ExecutionState) (i : String) (pt : PendingTool)
    (hid : tu.toolUseId = some i) (hmem : dictLookup st.pendingTools i = some pt) :
    convert_strands_to_agui_events (.currentToolUse tu) st =
      .ok [.toolCallArgs i (pyValStr (tu.input.getD (.pyStr "")))] st := by
  simp [convert_strands_to_agui_events, handleCurrentToolUse, getToolUseId, hid, hmem]

theorem C1_amended_witness :
    dictLookup exC1St.pendingTools "t1" =
      some (⟨"calculator", .pyDict []⟩ : PendingTool) ∧
    convert_strands_to_agui_events (.currentToolUse tuCalcExpr) exC1St =
      .ok [.toolCallArgs "t1" (pyValStr (tuCalcExpr.input.getD (.pyStr "")))] exC1St :=
  ⟨by decide, C1_amended tuCalcExpr exC1St "t1" ⟨"calculator", .pyDict []⟩
    (by decide) (by decide)⟩

/-- C2 (counterexample): an explicit tool-use-start shape for the already
registered id `t1` emits a second `ToolCallStart` (the claim says no
event) and overwrites the stored entry input (the claim says no
overwrite). -/
theorem C2_counterexample :
    (dictLookup exC1St.pendingTools "t1").isSome = true ∧
    convert_strands_to_agui_events
        (.eventWrapped (.contentBlockStart (some tuCalcExpr))) exC1St =
      .ok [.toolCallStart "t1" "calculator"] exRegisteredExprSt ∧
    dictLookup exRegisteredExprSt.pendingTools "t1" =
      some ⟨"calculator", .pyDict [("expression", "2+2")]⟩ := by
  refine ⟨?_, ?_, ?_⟩ <;> decide

/-- C2 (amended): the explicit tool-use-start shape performs no membership
check: for every such event the translator unconditionally overwrites the
`pending_tools` entry with the event declared name and input and emits a
`ToolCallStart`, even when the id is already registered. -/
theorem C2_amended (tu : ToolUseData) (st : ExecutionState) (i : String)
    (hid : tu.toolUseId = some i) :
    convert_strands_to_agui_events (.eventWrapped (.contentBlockStart (some tu))) st =
      .ok [.toolCallStart i (tu.name.getD "unknown")]
        { st with pendingTools :=
            (dictInsert st.pendingTools i
              (⟨tu.name.getD "unknown", tu.input.getD (.pyDict [])⟩ : PendingTool)) } := by
  simp [convert_strands_to_agui_events, handleContentBlockStart, getToolUseId, hid]

theorem C2_amended_witness :
    convert_strands_to_agui_events
        (.eventWrapped (.contentBlockStart (some tuCalcExpr))) exC1St =
      .ok [.toolCallStart "t1" (tuCalcExpr.name.getD "unknown")]
        { exC1St with pendingTools :=
            (dictInsert exC1St.pendingTools "t1"
              (⟨tuCalcExpr.name.getD "unknown",
                tuCalcExpr.input.getD (.pyDict [])⟩ : PendingTool)) } :=
  C2_amended tuCalcExpr exC1St "t1" (by decide)

/-- C5 (counterexample): a complete-message snapshot containing one
tool-use item emits only a `ToolCallEnd` — no `ToolCallArgs` precedes it,
refuting "emit ToolCallArgs with its current full input followed by
ToolCallEnd". -/
theorem C5_counterexample :
    convert_strands_to_agui_events
        (.messageEvt ⟨some "assistant", some [.toolUseItem tuCalcExpr]⟩)
        (initExecutionState "t" "r") =
      .ok [.toolCallEnd "t1"] exRegisteredExprSt ∧
    ([AGUIEvent.toolCallEnd "t1"].countP isToolCallArgsEv = 0) := by
  refine ⟨?_, ?_⟩ <;> decide

/-- C5 (amended): a complete-message snapshot registers each tool-use
content item whose id is unseen, and emits exactly one `ToolCallEnd` per
tool-use item present — and no `ToolCallArgs` at all. -/
theorem C5_amended (items : List ContentItem) (st : ExecutionState) (tu : ToolUseData)
    (i : String) (hmem : ContentItem.toolUseItem tu ∈ items)
    (hid : tu.toolUseId = some i) :
    convert_strands_to_agui_events (.messageEvt ⟨some "assistant", some items⟩) st =
      .ok (processSnapshotItems items st).1 (processSnapshotItems items st).2 ∧
    (∀ e ∈ (processSnapshotItems items st).1, isToolCallEndEv e = true) ∧
    ((processSnapshotItems items st).1.countP isToolCallArgsEv = 0) ∧
    ((processSnapshotItems items st).1.length = items.countP isToolUseItem) ∧
    ((dictLookup (processSnapshotItems items st).2.pendingTools i).isSome = true) := by
  obtain ⟨hend, _, _, _, hlen⟩ := processSnapshotItems_props items st
  refine ⟨?_, hend, ?_, hlen, processSnapshotItems_registers items st tu i hmem hid⟩
  · simp [convert_strands_to_agui_events, handleMessage]
  · exact List.countP_eq_zero.mpr fun e he => by
      simp [(toolCallEnd_classify e (hend e he)).2.2.2.1]

theorem C5_amended_witness :
    convert_strands_to_agui_events
        (.messageEvt ⟨some "assistant", some [.toolUseItem tuCalcExpr]⟩)
        (initExecutionState "t" "r") =
      .ok (processSnapshotItems [.toolUseItem tuCalcExpr]
            (initExecutionState "t" "r")).1
          (processSnapshotItems [.toolUseItem tuCalcExpr]
            (initExecutionState "t" "r")).2 ∧
    (dictLookup (processSnapshotItems [.toolUseItem tuCalcExpr]
        (initExecutionState "t" "r")).2.pendingTools "t1").isSome = true :=
  ⟨(C5_amended [.toolUseItem tuCalcExpr] (initExecutionState "t" "r") tuCalcExpr "t1"
      (by decide) (by decide)).1,
   (C5_amended [.toolUseItem tuCalcExpr] (initExecutionState "t" "r") tuCalcExpr "t1"
      (by decide) (by decide)).2.2.2.2⟩

/-- C6 (counterexample): after the paused run `exPausedRun` is resumed and
reaches the terminal `RunFinished\x7bcompleted\x7d`, the stored
`waiting_for_tools` flag is still true — the code never resets it,
refuting "it does not remain true after the run resumes and reaches a
terminal outcome". -/
theorem C6_counterexample :
    exResume.events.getLast? = some (.runFinished "t" "r" .completed) ∧
    dictLookup exResume.store (storeKey "t" "r") = some exResumedState ∧
    exResumedState.waitingForTools = true := by
  refine ⟨?_, ?_, ?_⟩ <;> decide

/-- C6 (amended): `waiting_for_tools` becomes true exactly when a run
pauses for tools, and true implies `pending_tools` is non-empty; but the
continuation path never writes the flag, so it keeps the paused run
value (true) even after the resumed run reaches a terminal outcome. -/
theorem C6_amended :
    (∀ (input : RunAgentInput) (trace : List UpstreamItem) (store : Store)
        (stF : ExecutionState),
      dictLookup (run_streaming input trace store).store
        (storeKey input.threadId input.runId) = some stF →
      stF.waitingForTools = true → stF.pendingTools ≠ []) ∧
    (∀ (tid rid : String) (results : List (String × String))
        (trace : List UpstreamItem) (store : Store) (msgs : List StrandsMessage)
        (st0 stF : ExecutionState),
      dictLookup store (storeKey tid rid) = some st0 →
      dictLookup (continue_after_tools tid rid results trace store msgs).store
        (storeKey tid rid) = some stF →
      stF.waitingForTools = st0.waitingForTools) := by
  constructor
  · intro input trace store stF hlook hwait
    cases hprep : prepareMessages input.messages with
    | error e =>
        have hstore : (run_streaming input trace store).store =
            dictInsert store (storeKey input.threadId input.runId)
              (initExecutionState input.threadId input.runId) := by
          simp [run_streaming, hprep]
        rw [hstore, dictLookup_dictInsert_self] at hlook
        obtain rfl := (Option.some.inj hlook).symm
        simp [initExecutionState] at hwait
    | ok msgs =>
        obtain ⟨_, _, hwaitLoop, _, _, _⟩ :=
          runLoop_props trace (initExecutionState input.threadId input.runId) false
        cases herr : (runLoop trace (initExecutionState input.threadId input.runId)
            false).errored with
        | some m =>
            have hstore : (run_streaming input trace store).store =
                dictInsert store (storeKey input.threadId input.runId)
                  (runLoop trace (initExecutionState input.threadId input.runId)
                    false).st := by
              simp [run_streaming, hprep, herr]
            rw [hstore, dictLookup_dictInsert_self] at hlook
            obtain rfl := (Option.some.inj hlook).symm
            rw [hwaitLoop] at hwait
            simp [initExecutionState] at hwait
        | none =>
            cases hb : ((runLoop trace (initExecutionState input.threadId input.runId)
                  false).hasToolCalls ||
                ((runLoop trace (initExecutionState input.threadId input.runId)
                  false).shouldPause &&
                 !(runLoop trace (initExecutionState input.threadId input.runId)
                  false).st.pendingTools.isEmpty)) &&
                !(runLoop trace (initExecutionState input.threadId input.runId)
                  false).st.pendingTools.isEmpty with
            | false =>
                have hstore : (run_streaming input trace store).store =
                    dictInsert store (storeKey input.threadId input.runId)
                      (runLoop trace (initExecutionState input.threadId input.runId)
                        false).st := by
                  simp [run_streaming, hprep, herr, hb]
                rw [hstore, dictLookup_dictInsert_self] at hlook
                obtain rfl := (Option.some.inj hlook).symm
                rw [hwaitLoop] at hwait
                simp [initExecutionState] at hwait
            | true =>
                have hstore : (run_streaming input trace store).store =
                    dictInsert store (storeKey input.threadId input.runId)
                      { (runLoop trace (initExecutionState input.threadId input.runId)
                          false).st with waitingForTools := true } := by
                  simp [run_streaming, hprep, herr, hb]
                rw [hstore, dictLookup_dictInsert_self] at hlook
                obtain rfl := (Option.some.inj hlook).symm
                simp only [Bool.and_eq_true, Bool.not_eq_true'] at hb
                intro hc
                simp only at hc
                rw [hc] at hb
                simp at hb
  · intro tid rid results trace store msgs st0 stF hlook0 hlookF
    obtain ⟨_, _, hwaitC⟩ := continueLoop_props trace (continueStartState st0 results)
    cases herr : (continueLoop trace (continueStartState st0 results)).errored with
    | some m =>
        have hstore : (continue_after_tools tid rid results trace store msgs).store =
            dictInsert store (storeKey tid rid)
              (continueLoop trace (continueStartState st0 results)).st := by
          simp [continue_after_tools, hlook0, herr]
        rw [hstore, dictLookup_dictInsert_self] at hlookF
        obtain rfl := (Option.some.inj hlookF).symm
        rw [hwaitC]
        simp [continueStartState]
    | none =>
        have hstore : (continue_after_tools tid rid results trace store msgs).store =
            dictInsert store (storeKey tid rid)
              (continueLoop trace (continueStartState st0 results)).st := by
          simp [continue_after_tools, hlook0, herr]
        rw [hstore, dictLookup_dictInsert_self] at hlookF
        obtain rfl := (Option.some.inj hlookF).symm
        rw [hwaitC]
        simp [continueStartState]

theorem C6_amended_witness :
    dictLookup exPausedRun.store (storeKey "t" "r") = some exPausedState ∧
    exPausedState.waitingForTools = true ∧
    exPausedState.pendingTools ≠ [] ∧
    dictLookup exResume.store (storeKey "t" "r") = some exResumedState ∧
    exResumedState.waitingForTools = exPausedState.waitingForTools :=
  ⟨by decide, by decide,
   C6_amended.1 exInput exPauseTrace [] exPausedState (by decide) (by decide),
   by decide,
   C6_amended.2 "t" "r" [("t1", "4")] [] exPausedRun.store [] exPausedState
     exResumedState (by decide) (by decide)⟩

/-- C7 (confirmed): calling `continue_after_tools` for a (thread_id,
run_id) pair with no registered execution state yields exactly the single
`RunError` event with code `STATE_ERROR` and performs no work: the store
and the engine history are returned unchanged. -/
theorem C7_state_error (tid rid : String) (results : List (String × String))
    (trace : List UpstreamItem) (store : Store) (msgs : List StrandsMessage)
    (h : dictLookup store (storeKey tid rid) = none) :
    continue_after_tools tid rid results trace store msgs =
      ⟨[.runError "Execution state not found" "STATE_ERROR"], store, msgs⟩ := by
  simp [continue_after_tools, h]

theorem C7_state_error_witness :
    dictLookup ([] : Store) (storeKey "t" "r") = none ∧
    continue_after_tools "t" "r" [("t1", "4")] exPauseTrace [] [] =
      ⟨[.runError "Execution state not found" "STATE_ERROR"], [], []⟩ :=
  ⟨by decide, C7_state_error "t" "r" [("t1", "4")] exPauseTrace [] [] (by decide)⟩

/-- C8 (counterexample): an upstream content delta with empty text DOES
fail the run — event validation rejects the empty delta, the exception is
caught at the run boundary, and the stream terminates with `RunError` —
refuting "the run does not fail because of it". No empty-delta
`TextMessageContent` is delivered. -/
theorem C8_counterexample :
    (run_streaming exInput exEmptyDeltaTrace []).events =
      [.runStarted "t" "r",
       .runError "TextMessageContentEvent: delta should have at least 1 character"
         "AGENT_ERROR"] := by
  decide

/-- C8 (amended): no stream produced by `run_streaming` or
`continue_after_tools` ever contains a `TextMessageContent` event with an
empty delta — but an upstream empty-text delta aborts the run with
`RunError` rather than being skipped. -/
theorem C8_amended :
    (∀ (input : RunAgentInput) (trace : List UpstreamItem) (store : Store)
        (m d : String),
      AGUIEvent.textMessageContent m d ∈ (run_streaming input trace store).events →
      d ≠ "") ∧
    (∀ (tid rid : String) (results : List (String × String))
        (trace : List UpstreamItem) (store : Store) (msgs : List StrandsMessage)
        (m d : String),
      AGUIEvent.textMessageContent m d ∈
        (continue_after_tools tid rid results trace store msgs).events → d ≠ "") := by
  constructor
  · intro input trace store m d hd
    obtain ⟨mids, term, heq, _, hcont, _, _, htermnc⟩ :=
      run_streaming_cases input trace store
    rw [heq] at hd
    rcases List.mem_cons.mp hd with hd | hd
    · exact absurd hd.symm (by simp)
    rcases List.mem_append.mp hd with hd | hd
    · exact hcont m d hd
    · exact absurd (List.mem_singleton.mp hd).symm (htermnc m d)
  · intro tid rid results trace store msgs m d hd
    obtain ⟨pre, term, heq, _, hcont, _, _, htermnc⟩ :=
      continue_cases tid rid results trace store msgs
    rw [heq] at hd
    rcases List.mem_append.mp hd with hd | hd
    · exact hcont m d hd
    · exact absurd (List.mem_singleton.mp hd).symm (htermnc m d)

theorem C8_amended_witness :
    AGUIEvent.textMessageContent "uuid-0" "Hi" ∈
      (run_streaming exInput exTextTrace []).events ∧
    ("Hi" : String) ≠ "" :=
  ⟨by decide, C8_amended.1 exInput exTextTrace [] "uuid-0" "Hi" (by decide)⟩

/-- C9 (counterexample): for an inbound history carrying a tool result, a
system message, and no prior assistant tool-use turn, the prepared engine
history still contains the system turn (the claim says it is excluded)
and contains no synthesized assistant tool-use block (the claim says one
is synthesized from the first declared tool). -/
theorem C9_counterexample :
    prepareMessages exC9Msgs = .ok exC9Strands ∧
    exC9Msgs.any isToolResultMsg = true ∧
    exC9Msgs.any isAssistantMsg = false ∧
    exC9Strands.any (fun msg => msg.role == "system") = true ∧
    exC9Strands.all (fun msg => msg.content.all fun b => !isToolUseBlock b) = true := by
  refine ⟨by rfl, ?_, ?_, ?_, ?_⟩ <;> decide

/-- C9 (amended): `run_streaming` prepares the engine history by
converting every inbound message in order, one entry per message, with no
exclusion of system messages and no synthesis of assistant tool-use
turns: the prepared history is exactly the pointwise image of the Message
Converter. -/
theorem C9_amended (msgs : List AGUIMessage) (out : List StrandsMessage)
    (h : prepareMessages msgs = .ok out) :
    out.length = msgs.length ∧
    ∀ i (hi : i < msgs.length) (ho : i < out.length),
      convert_agui_message_to_strands (msgs.get ⟨i, hi⟩) = .ok (out.get ⟨i, ho⟩) := by
  induction msgs generalizing out with
  | nil =>
      simp only [prepareMessages, Except.ok.injEq] at h
      subst h
      exact ⟨rfl, fun i hi _ => absurd hi (Nat.not_lt_zero i)⟩
  | cons msg rest ih =>
      cases hc : convert_agui_message_to_strands msg with
      | error e => simp [prepareMessages, hc] at h
      | ok sm =>
          cases ht : prepareMessages rest with
          | error e => simp [prepareMessages, hc, ht] at h
          | ok tail =>
              simp only [prepareMessages, hc, ht, Except.ok.injEq] at h
              subst h
              obtain ⟨hlen, hidx⟩ := ih tail ht
              refine ⟨by simp [hlen], ?_⟩
              intro i hi ho
              cases i with
              | zero => exact hc
              | succ n =>
                  exact hidx n (Nat.lt_of_succ_lt_succ hi) (Nat.lt_of_succ_lt_succ ho)

theorem C9_amended_witness :
    exC9Strands.length = exC9Msgs.length ∧
    convert_agui_message_to_strands (exC9Msgs.get ⟨0, by decide⟩) =
      .ok (exC9Strands.get ⟨0, by decide⟩) :=
  ⟨(C9_amended exC9Msgs exC9Strands (by rfl)).1,
   (C9_amended exC9Msgs exC9Strands (by rfl)).2 0 (by decide) (by decide)⟩

/-- C10 (confirmed): the callable stand-in constructed for a
frontend-declared tool unconditionally raises when invoked backend-side,
for every tool and every argument assignment: invocation can never
produce a successful tool result. -/
theorem C10_frontend_tool_unreachable (t : AGUITool)
    (kwargs : List (String × String)) :
    (create_strands_tool_from_agui t).invoke kwargs =
      .error ("Frontend tool " ++ t.name ++
        " was executed in backend - this indicates improper AG-UI integration") := rfl

end StrandsAGUI
